/-
Verification of the heatmap-project tile/map core.

Shallow embedding of the Python sources:
  src/core/data_manager.py   (DataManager: point store + rectangle queries)
  src/gui/widgets/map_view.py (TileCache, MapView: caches, fetch, zoom, transforms)
  src/map_filters.py          (MapFilter: per-pixel tile filters)

Modelling conventions:
  * Python dicts are insertion-ordered association lists; assignment to an
    existing key updates the entry in place (keeping its position), otherwise
    appends.  `next(iter(d))` yields the first-inserted key.
  * Python floats are modelled as exact rationals (ℚ) for cache/zoom state and
    as reals (ℝ) for the transcendental Web-Mercator transforms.
  * A Python function that can raise is modelled by returning the post-state
    paired with a Bool flag that is true when an exception propagates
    (mutations performed before the raise are kept, as in Python).
  * Qt images are abstract values of a type parameter V where the pixel content
    is irrelevant (caches), and rasters `List (List Pixel)` where it is
    relevant (filters).
-/
import Mathlib

namespace Heatmap

/-! ## Python dict model (insertion-ordered association list) -/

/-- `k in d` for a Python dict. -/
def dcontains {K V : Type} [DecidableEq K] (l : List (K × V)) (k : K) : Bool :=
  l.any (fun p => decide (p.1 = k))

/-- `d[k]` / `d.get(k)` for a Python dict (`none` when absent). -/
def dlookup {K V : Type} [DecidableEq K] (l : List (K × V)) (k : K) : Option V :=
  (l.find? (fun p => decide (p.1 = k))).map Prod.snd

/-- `d[k] = v` for a Python dict: update in place when the key exists
(keeping its insertion position), otherwise append. -/
def dinsert {K V : Type} [DecidableEq K] (l : List (K × V)) (k : K) (v : V) :
    List (K × V) :=
  if dcontains l k then
    l.map (fun p => if p.1 = k then (k, v) else p)
  else
    l ++ [(k, v)]

/-- `del d[k]` for a Python dict. -/
def dremove {K V : Type} [DecidableEq K] (l : List (K × V)) (k : K) :
    List (K × V) :=
  l.filter (fun p => decide (p.1 ≠ k))

theorem dcontains_eq_false_iff {K V : Type} [DecidableEq K]
    (l : List (K × V)) (k : K) :
    dcontains l k = false ↔ ∀ p ∈ l, p.1 ≠ k := by
  simp [dcontains]

theorem dcontains_cons {K V : Type} [DecidableEq K]
    (p : K × V) (rest : List (K × V)) (k : K) :
    dcontains (p :: rest) k = (decide (p.1 = k) || dcontains rest k) := by
  simp [dcontains]

theorem dlookup_map_update {K V : Type} [DecidableEq K]
    (l : List (K × V)) (k : K) (v : V) (h : dcontains l k = true) :
    dlookup (l.map (fun p => if p.1 = k then (k, v) else p)) k = some v := by
  induction l with
  | nil => simp [dcontains] at h
  | cons p rest ih =>
    rw [dcontains_cons] at h
    by_cases hp : p.1 = k
    · simp [dlookup, hp]
    · have hrest : dcontains rest k = true := by simpa [hp] using h
      simpa [dlookup, hp] using ih hrest

theorem dlookup_append_absent {K V : Type} [DecidableEq K]
    (l : List (K × V)) (k : K) (v : V) (h : dcontains l k = false) :
    dlookup (l ++ [(k, v)]) k = some v := by
  induction l with
  | nil => simp [dlookup]
  | cons p rest ih =>
    rw [dcontains_cons, Bool.or_eq_false_iff] at h
    have hp : ¬ p.1 = k := by simpa using h.1
    simpa [dlookup, hp] using ih h.2

theorem dlookup_dinsert_self {K V : Type} [DecidableEq K]
    (l : List (K × V)) (k : K) (v : V) :
    dlookup (dinsert l k v) k = some v := by
  unfold dinsert
  by_cases h : dcontains l k
  · rw [if_pos h]
    exact dlookup_map_update l k v h
  · rw [if_neg h]
    exact dlookup_append_absent l k v (by simpa using h)

theorem dinsert_of_not_contains {K V : Type} [DecidableEq K]
    (l : List (K × V)) (k : K) (v : V) (h : dcontains l k = false) :
    dinsert l k v = l ++ [(k, v)] := by
  simp [dinsert, h]

/-! ## DataManager (src/core/data_manager.py)

Points are (lat, lon) pairs; coordinates modelled as exact rationals. -/

/-- A geographic point: (latitude, longitude). -/
abbrev GeoPoint := ℚ × ℚ

/-- The bounds dict computed by `DataManager._calculate_bounds`. -/
structure Bounds where
  min_lat : ℚ
  max_lat : ℚ
  min_lon : ℚ
  max_lon : ℚ
deriving DecidableEq, Repr

/-- One value of `DataManager.file_registry`: points plus precomputed bounds. -/
structure FileData where
  points : List GeoPoint
  bounds : Bounds
deriving DecidableEq, Repr

/-- `DataManager.file_registry`: dict file_path ↦ FileData. -/
abbrev Registry := List (String × FileData)

/-- Python `min(l)` on a nonempty list (the `[]` case is never reached:
`_calculate_bounds` is only called on nonempty point lists). -/
def listMin : List ℚ → ℚ
  | [] => 0
  | x :: xs => xs.foldl min x

/-- Python `max(l)` on a nonempty list (the `[]` case is never reached). -/
def listMax : List ℚ → ℚ
  | [] => 0
  | x :: xs => xs.foldl max x

/-- `DataManager._calculate_bounds(points)`. -/
def calculate_bounds (points : List GeoPoint) : Bounds :=
  { min_lat := listMin (points.map Prod.fst)
    max_lat := listMax (points.map Prod.fst)
    min_lon := listMin (points.map Prod.snd)
    max_lon := listMax (points.map Prod.snd) }

/-- `DataManager.add_file(file_path, points)`.  Returns the new registry and
a flag that is true when `ValueError` propagates (empty point list); the
raise happens before any mutation, so the registry is returned unchanged in
that case. -/
def add_file (reg : Registry) (file_path : String) (points : List GeoPoint) :
    Registry × Bool :=
  if points.isEmpty then
    (reg, true)
  else
    (dinsert reg file_path { points := points, bounds := calculate_bounds points },
     false)

/-- `DataManager.remove_file(file_path)`. -/
def remove_file (reg : Registry) (file_path : String) : Registry :=
  if dcontains reg file_path then dremove reg file_path else reg

/-- The selection-bounds dict `{"nw": .., "ne": .., "sw": .., "se": ..}`,
each corner a (lat, lon) pair. -/
structure SelectionBounds where
  nw : GeoPoint
  ne : GeoPoint
  sw : GeoPoint
  se : GeoPoint
deriving DecidableEq, Repr

/-- `DataManager._bounds_overlap(file_bounds, selection_bounds)`. -/
def bounds_overlap (fb : Bounds) (sel : SelectionBounds) : Bool :=
  !(decide (fb.max_lat < sel.sw.1) || decide (fb.min_lat > sel.nw.1) ||
    decide (fb.max_lon < sel.nw.2) || decide (fb.min_lon > sel.ne.2))

/-- `DataManager._point_in_bounds(point, selection_bounds)`. -/
def point_in_bounds (p : GeoPoint) (sel : SelectionBounds) : Bool :=
  decide (sel.sw.1 ≤ p.1) && decide (p.1 ≤ sel.nw.1) &&
  decide (sel.nw.2 ≤ p.2) && decide (p.2 ≤ sel.ne.2)

/-- `DataManager.get_points_in_bounds(selection_bounds)`: iterate the registry
in insertion order, skip files whose bounds do not overlap, keep in-bounds
points of the rest in their original order. -/
def get_points_in_bounds (reg : Registry) (sel : SelectionBounds) :
    List GeoPoint :=
  reg.flatMap (fun e =>
    if bounds_overlap e.2.bounds sel then
      e.2.points.filter (fun p => point_in_bounds p sel)
    else
      [])

/-! ## TileCache (src/gui/widgets/map_view.py, class TileCache)

A tile key is the `(zoom, x, y)` triple serialised by the code as the string
`f"{zoom}_{x}_{y}"` (the serialisation is injective on integer triples, so we
keep the triple).  The disk tier (`tile_{zoom}_{x}_{y}.png` files under the
cache directory) is a mapping keyed by the same triple. -/

/-- `(zoom, x, y)`, the content of cache-key strings `f"{zoom}_{x}_{y}"`. -/
abbrev TileKey := ℤ × ℤ × ℤ

/-- State of a `TileCache` instance; `V` stands for decoded `QImage` values. -/
structure TileCacheState (V : Type) where
  memory_cache : List (TileKey × V)
  filtered_cache : List (TileKey × V)
  disk : List (TileKey × V)
  max_cache_size : ℕ
deriving DecidableEq, Repr

/-- `TileCache.__init__`: empty memory tiers, `max_cache_size = 1000`; the
disk tier holds whatever `cache_dir` already contains. -/
def TileCache.init {V : Type} (disk : List (TileKey × V)) : TileCacheState V :=
  { memory_cache := [], filtered_cache := [], disk := disk,
    max_cache_size := 1000 }

/-- `TileCache.__contains__` (memory tier only). -/
def TileCache.containsKey {V : Type} (c : TileCacheState V) (k : TileKey) :
    Bool :=
  dcontains c.memory_cache k

/-- `TileCache.__setitem__(key, value)`.  When the memory tier is at
capacity the code pops `next(iter(...))` (the first-inserted key) from the
base map and then from the filtered map; `next(iter({}))` on an empty dict
raises `StopIteration`.  Returns the post-state (mutations made before a
raise are kept) and true when an exception propagates. -/
def TileCache.setItem {V : Type} (c : TileCacheState V) (k : TileKey) (v : V) :
    TileCacheState V × Bool :=
  if c.max_cache_size ≤ c.memory_cache.length then
    match c.memory_cache, c.filtered_cache with
    | [], _ =>
      -- next(iter(self.memory_cache)) raises StopIteration
      (c, true)
    | _ :: ms, [] =>
      -- base entry popped, then next(iter(self.filtered_cache)) raises
      ({ c with memory_cache := ms }, true)
    | _ :: ms, _ :: fs =>
      ({ c with memory_cache := dinsert ms k v, filtered_cache := fs }, false)
  else
    ({ c with memory_cache := dinsert c.memory_cache k v }, false)

/-- `TileCache.get_tile(x, y, zoom)`: read the disk tier. -/
def TileCache.diskGet {V : Type} (c : TileCacheState V) (x y zoom : ℤ) :
    Option V :=
  dlookup c.disk (zoom, x, y)

/-- `TileCache.save_tile(x, y, zoom, image)`: write the disk tier (its
`try/except` never propagates). -/
def TileCache.saveTile {V : Type} (c : TileCacheState V) (x y zoom : ℤ)
    (v : V) : TileCacheState V :=
  { c with disk := dinsert c.disk (zoom, x, y) v }

/-- `TileCache.clear_memory()`. -/
def TileCache.clearMemory {V : Type} (c : TileCacheState V) : TileCacheState V :=
  { c with memory_cache := [], filtered_cache := [] }

/-! ## MapView (src/gui/widgets/map_view.py, class MapView)

Only the cache-relevant state is modelled: zoom level, pan offsets, the
`TileCache`, the `pending_requests` dict (its values are always `None`, so it
is kept as the list of its keys in insertion order) and the
`pending_filters` set.  Externally visible actions (network submissions,
worker submissions) are recorded as an effect list. -/

/-- Outward effects of a MapView operation. -/
inductive Effect
  | networkRequest (k : TileKey)
  | filterJobStart (k : TileKey)
deriving DecidableEq, Repr

/-- Cache-relevant state of a `MapView` instance. -/
structure MapViewState (V : Type) where
  zoom_level : ℤ
  pan_x : ℚ
  pan_y : ℚ
  tile_cache : TileCacheState V
  pending_requests : List TileKey
  pending_filters : List TileKey
deriving DecidableEq, Repr

/-- `MapView._cache_key` / `MapView.tile_key`: `f"{zoom}_{x}_{y}"`. -/
def MapView.tileKey (x y zoom : ℤ) : TileKey := (zoom, x, y)

/-- `MapView.request_tile(x, y, zoom)`: silently return when the key is in
the memory cache or already pending; otherwise register the pending request
and issue the network fetch. -/
def MapView.requestTile {V : Type} (s : MapViewState V) (x y zoom : ℤ) :
    MapViewState V × List Effect :=
  let key := MapView.tileKey x y zoom
  if TileCache.containsKey s.tile_cache key || decide (key ∈ s.pending_requests)
  then
    (s, [])
  else
    ({ s with pending_requests := s.pending_requests ++ [key] },
     [Effect.networkRequest key])

/-- Result of `MapView.get_tile`: the returned value (`None` ↦ `none`), the
post-state, the effects, and whether an exception propagated (possible via
`TileCache.__setitem__` during disk promotion). -/
structure GetTileResult (V : Type) where
  result : Option V
  state : MapViewState V
  effects : List Effect
  raised : Bool
deriving DecidableEq, Repr

/-- `MapView.get_tile(x, y, zoom)`: filtered cache, then memory cache, then
disk (promoting a hit into memory via `__setitem__`), else request from the
network and return `None`.  No filter job is ever submitted here. -/
def MapView.getTile {V : Type} (s : MapViewState V) (x y zoom : ℤ) :
    GetTileResult V :=
  let key := MapView.tileKey x y zoom
  match dlookup s.tile_cache.filtered_cache key with
  | some t => { result := some t, state := s, effects := [], raised := false }
  | none =>
    if TileCache.containsKey s.tile_cache key then
      { result := dlookup s.tile_cache.memory_cache key, state := s,
        effects := [], raised := false }
    else
      match TileCache.diskGet s.tile_cache x y zoom with
      | some t =>
        let r := TileCache.setItem s.tile_cache key t
        let s1 : MapViewState V := { s with tile_cache := r.1 }
        if r.2 then
          { result := none, state := s1, effects := [], raised := true }
        else
          { result := some t, state := s1, effects := [], raised := false }
      | none =>
        let r := MapView.requestTile s x y zoom
        { result := none, state := r.1, effects := r.2, raised := false }

/-- `MapView.handle_tile_response(reply)`: on a successful reply whose bytes
decode to a non-null image, cache it in memory (`__setitem__`, which may
raise) and on disk, then drop the pending entry; on failure just drop the
pending entry.  Returns the post-state and whether an exception propagated. -/
def MapView.handleTileResponse {V : Type} (s : MapViewState V) (key : TileKey)
    (noError : Bool) (decoded : Option V) : MapViewState V × Bool :=
  match noError, decoded with
  | true, some image =>
    let r := TileCache.setItem s.tile_cache key image
    if r.2 then
      -- StopIteration from __setitem__ propagates; the pending entry stays
      ({ s with tile_cache := r.1 }, true)
    else
      let c := TileCache.saveTile r.1 key.2.1 key.2.2 key.1 image
      ({ s with tile_cache := c,
                pending_requests := s.pending_requests.filter (fun k => decide (k ≠ key)) },
       false)
  | _, _ =>
    ({ s with pending_requests := s.pending_requests.filter (fun k => decide (k ≠ key)) },
     false)

/-- `MapView.clear_cache()`: clear pending filters, pending requests and the
memory tiers of the tile cache (the disk tier survives). -/
def MapView.clearCache {V : Type} (s : MapViewState V) : MapViewState V :=
  { s with pending_filters := [],
           pending_requests := [],
           tile_cache := TileCache.clearMemory s.tile_cache }

/-- `MapView.zoom_to(new_zoom, center_x, center_y)` with explicit center
arguments: clamp, no-op when the clamped zoom equals the current one,
otherwise rescale the pan offsets around the center and clear the caches.
`2 ** (new_zoom - self.zoom_level)` is an exact power of two, modelled by
`zpow` on ℚ. -/
def MapView.zoomTo {V : Type} (s : MapViewState V) (new_zoom : ℤ)
    (center_x center_y : ℚ) : MapViewState V :=
  let nz := max 0 (min 19 new_zoom)
  if nz = s.zoom_level then
    s
  else
    let world_x := center_x - s.pan_x
    let world_y := center_y - s.pan_y
    let scale : ℚ := 2 ^ (nz - s.zoom_level)
    MapView.clearCache
      { s with pan_x := center_x - world_x * scale,
               pan_y := center_y - world_y * scale,
               zoom_level := nz }

/-! ## MapFilter (src/map_filters.py)

Rasters are row-major pixel grids; the nested `for y / for x` loops of the
source are `List.map` over rows and pixels.  Colour channels are exact:
8-bit channels as ℕ in the RGB filters, and the `hueF/saturationF/valueF`
floating-point space as ℚ in `[0,1]` (hue `-1` for achromatic colours, as in
Qt) for the HSV filters; decimal literals of the source (`0.393`, `1.2`, …)
are the corresponding rationals. -/

/-- An ARGB32 pixel, channels in `[0,255]`. -/
structure Pixel where
  r : ℕ
  g : ℕ
  b : ℕ
  a : ℕ
deriving DecidableEq, Repr

/-- A decoded image raster, as rows of pixels. -/
abbrev Raster := List (List Pixel)

/-- Qt `QColor(QRgb)` constructor, reached as `QColor(image.pixel(x, y))`:
the Qt documentation states that the alpha component of the QRgb value
"is ignored and set to solid alpha" (255). -/
def qcolor_from_rgb (p : Pixel) : Pixel := { r := p.r, g := p.g, b := p.b, a := 255 }

/-- A colour in Qt's floating-point channel space (`redF` …): channels in
`[0,1]`. -/
structure ColorF where
  r : ℚ
  g : ℚ
  b : ℚ
  a : ℚ
deriving DecidableEq, Repr

/-- 8-bit channels to floating-point channels. -/
def toColorF (p : Pixel) : ColorF :=
  { r := (p.r : ℚ) / 255, g := (p.g : ℚ) / 255, b := (p.b : ℚ) / 255,
    a := (p.a : ℚ) / 255 }

/-- Qt `qRound` (round half up on nonnegative input). -/
def qRound (x : ℚ) : ℤ := ⌊x + 1 / 2⌋

/-- Floating-point channels back to 8-bit channels. -/
def fromColorF (c : ColorF) : Pixel :=
  { r := (qRound (c.r * 255)).toNat, g := (qRound (c.g * 255)).toNat,
    b := (qRound (c.b * 255)).toNat, a := (qRound (c.a * 255)).toNat }

/-- Qt RGB→HSV (`QColor.hueF/saturationF/valueF`): hue in `[0,1)` or `-1`
for achromatic colours, saturation and value in `[0,1]`. -/
def rgbToHsvF (c : ColorF) : ℚ × ℚ × ℚ :=
  let mx := max c.r (max c.g c.b)
  let mn := min c.r (min c.g c.b)
  let d := mx - mn
  let s := if mx = 0 then 0 else d / mx
  let h :=
    if d = 0 then -1
    else if mx = c.r then Int.fract (((c.g - c.b) / d) / 6)
    else if mx = c.g then (((c.b - c.r) / d) + 2) / 6
    else (((c.r - c.g) / d) + 4) / 6
  (h, s, mx)

/-- Qt HSV→RGB (`QColor.setHsvF` followed by reading the RGB channels):
the standard six-sector conversion; `s = 0` or hue `-1` gives the grey `v`. -/
def hsvToRgbF (h s v a : ℚ) : ColorF :=
  if s = 0 ∨ h = -1 then { r := v, g := v, b := v, a := a }
  else
    let h6 := if h = 1 then 0 else h * 6
    let i : ℤ := ⌊h6⌋
    let f := h6 - (i : ℚ)
    let pc := v * (1 - s)
    let qc := v * (1 - s * f)
    let tc := v * (1 - s * (1 - f))
    if i = 0 then { r := v, g := tc, b := pc, a := a }
    else if i = 1 then { r := qc, g := v, b := pc, a := a }
    else if i = 2 then { r := pc, g := v, b := tc, a := a }
    else if i = 3 then { r := pc, g := qc, b := v, a := a }
    else if i = 4 then { r := tc, g := pc, b := v, a := a }
    else { r := v, g := pc, b := qc, a := a }

/-- `MapFilter.no_filter`. -/
def no_filter (image : Raster) : Raster := image

/-- One pixel of `MapFilter.night_mode`: `pixel = QColor(result.pixel(x,y))`
(alpha forced to 255), then `pixel.setHsv(hue, saturation, 255 - value)`
(value inverted, alpha left at its default 255). -/
def night_mode_pixel (p : Pixel) : Pixel :=
  let c := toColorF (qcolor_from_rgb p)
  let hsv := rgbToHsvF c
  fromColorF (hsvToRgbF hsv.1 hsv.2.1 (1 - hsv.2.2) 1)

/-- `MapFilter.night_mode`. -/
def night_mode (image : Raster) : Raster := image.map (List.map night_mode_pixel)

/-- One pixel of `MapFilter.sepia`: `color = QColor(result.pixel(x,y))`
(alpha forced to 255), the 3×3 channel mix truncated by `int(...)` (ℕ
division by 1000 of the decimal mix) and clamped by `min(_, 255)`, written
back with `color.alpha()` (which is the forced 255). -/
def sepia_pixel (p : Pixel) : Pixel :=
  let c := qcolor_from_rgb p
  { r := min ((393 * c.r + 769 * c.g + 189 * c.b) / 1000) 255,
    g := min ((349 * c.r + 686 * c.g + 168 * c.b) / 1000) 255,
    b := min ((272 * c.r + 534 * c.g + 131 * c.b) / 1000) 255,
    a := c.a }

/-- `MapFilter.sepia`. -/
def sepia (image : Raster) : Raster := image.map (List.map sepia_pixel)

/-- One pixel of `MapFilter.cool_tone`: hue shifted by `(h + 0.5) % 1.0`
(Python float modulo, i.e. `Int.fract`), alpha from `color.alphaF()` of the
`QColor(QRgb)` colour, i.e. 1. -/
def cool_tone_pixel (p : Pixel) : Pixel :=
  let c := toColorF (qcolor_from_rgb p)
  let hsv := rgbToHsvF c
  fromColorF (hsvToRgbF (Int.fract (hsv.1 + 1 / 2)) hsv.2.1 hsv.2.2 c.a)

/-- `MapFilter.cool_tone`. -/
def cool_tone (image : Raster) : Raster := image.map (List.map cool_tone_pixel)

/-- One pixel of `MapFilter.warm_tone`: `h = (h - 0.1) % 1.0`,
`s = min(s * 1.2, 1.0)`. -/
def warm_tone_pixel (p : Pixel) : Pixel :=
  let c := toColorF (qcolor_from_rgb p)
  let hsv := rgbToHsvF c
  fromColorF (hsvToRgbF (Int.fract (hsv.1 - 1 / 10))
    (min (hsv.2.1 * (6 / 5)) 1) hsv.2.2 c.a)

/-- `MapFilter.warm_tone`. -/
def warm_tone (image : Raster) : Raster := image.map (List.map warm_tone_pixel)

/-- One pixel of `MapFilter.high_contrast`: `s = min(s * 1.5, 1.0)`,
`v = 0.5 + (v - 0.5) * 1.5` clamped to `[0,1]`. -/
def high_contrast_pixel (p : Pixel) : Pixel :=
  let c := toColorF (qcolor_from_rgb p)
  let hsv := rgbToHsvF c
  fromColorF (hsvToRgbF hsv.1 (min (hsv.2.1 * (3 / 2)) 1)
    (max 0 (min 1 (1 / 2 + (hsv.2.2 - 1 / 2) * (3 / 2)))) c.a)

/-- `MapFilter.high_contrast`. -/
def high_contrast (image : Raster) : Raster :=
  image.map (List.map high_contrast_pixel)

/-- One pixel of `MapFilter.muted`: `s *= 0.5`, `v = v * 0.95 + 0.05`. -/
def muted_pixel (p : Pixel) : Pixel :=
  let c := toColorF (qcolor_from_rgb p)
  let hsv := rgbToHsvF c
  fromColorF (hsvToRgbF hsv.1 (hsv.2.1 * (1 / 2))
    (hsv.2.2 * (19 / 20) + 1 / 20) c.a)

/-- `MapFilter.muted`. -/
def muted (image : Raster) : Raster := image.map (List.map muted_pixel)

/-- Python callables that may raise are `Except`-valued in the model. -/
abbrev FilterFn := Raster → Except String Raster

/-- `MapFilter.FILTERS` (the initial catalogue; `add_custom_filter` may
extend it).  All seven entries are total, so they are wrapped in `.ok`. -/
def FILTERS : List (String × FilterFn) :=
  [("None", fun image => .ok (no_filter image)),
   ("Night Mode", fun image => .ok (night_mode image)),
   ("Sepia", fun image => .ok (sepia image)),
   ("Cool Tone", fun image => .ok (cool_tone image)),
   ("Warm Tone", fun image => .ok (warm_tone image)),
   ("High Contrast", fun image => .ok (high_contrast image)),
   ("Muted", fun image => .ok (muted image))]

/-- `MapFilter.apply_filter(image, filter_name)` over the current catalogue
`filters` (the mutable class attribute `cls.FILTERS`): a name outside the
catalogue returns the input; a raising filter is caught by the
`try/except` and the input is returned. -/
def apply_filter {I : Type} (filters : List (String × (I → Except String I)))
    (image : I) (filter_name : String) : I :=
  match dlookup filters filter_name with
  | none => image
  | some f =>
    match f image with
    | .ok result => result
    | .error _ => image

/-! ## Coordinate transforms (src/gui/widgets/map_view.py)

`MapView.geo_to_pixel` and the `screen_to_map` closure inside
`MapView.get_selection_bounds`, over ℝ (`math.radians(x) = x*π/180`,
`math.degrees(x) = x*180/π`). -/

/-- `MapView.geo_to_pixel(lat, lon, zoom)`. -/
noncomputable def geo_to_pixel (lat lon : ℝ) (zoom : ℕ) : ℝ × ℝ :=
  let lat_rad := lat * (Real.pi / 180)
  let n : ℝ := 2 ^ zoom
  ((lon + 180) / 360 * n * 256,
   (1 - Real.log (Real.tan lat_rad + 1 / Real.cos lat_rad) / Real.pi) / 2 * n
     * 256)

/-- `screen_to_map(x, y)` from `MapView.get_selection_bounds`, with the
enclosing instance's `pan_x`, `pan_y`, `zoom_level` made explicit;
returns `(lat_deg, lon_deg)`. -/
noncomputable def screen_to_map (pan_x pan_y : ℝ) (zoom : ℕ) (x y : ℝ) :
    ℝ × ℝ :=
  let tile_x := (x - pan_x) / 256
  let tile_y := (y - pan_y) / 256
  let n : ℝ := 2 ^ zoom
  (Real.arctan (Real.sinh (Real.pi * (1 - 2 * tile_y / n))) * (180 / Real.pi),
   tile_x / n * 360 - 180)

/-! ## Helper lemmas about Python `min`/`max` over nonempty lists -/

theorem foldl_min_le {α : Type} [LinearOrder α] (xs : List α) (x : α) :
    (∀ a ∈ xs, xs.foldl min x ≤ a) ∧ xs.foldl min x ≤ x := by
  induction xs generalizing x with
  | nil => simp
  | cons y ys ih =>
    refine ⟨fun a ha => ?_, ?_⟩
    · rcases List.mem_cons.mp ha with rfl | ha
      · exact le_trans (ih (min x a)).2 (min_le_right x a)
      · exact (ih (min x y)).1 a ha
    · exact le_trans (ih (min x y)).2 (min_le_left x y)

theorem foldl_max_le {α : Type} [LinearOrder α] (xs : List α) (x : α) :
    (∀ a ∈ xs, a ≤ xs.foldl max x) ∧ x ≤ xs.foldl max x := by
  induction xs generalizing x with
  | nil => simp
  | cons y ys ih =>
    refine ⟨fun a ha => ?_, ?_⟩
    · rcases List.mem_cons.mp ha with rfl | ha
      · exact le_trans (le_max_right x a) (ih (max x a)).2
      · exact (ih (max x y)).1 a ha
    · exact le_trans (le_max_left x y) (ih (max x y)).2

theorem foldl_min_mem {α : Type} [LinearOrder α] (xs : List α) (x : α) :
    xs.foldl min x ∈ x :: xs := by
  induction xs generalizing x with
  | nil => simp
  | cons y ys ih =>
    rw [List.foldl_cons]
    rcases List.mem_cons.mp (ih (min x y)) with hm | hm
    · rcases min_choice x y with hc | hc
      · rw [hm, hc]; exact List.mem_cons_self _ _
      · rw [hm, hc]; exact List.mem_cons_of_mem _ (List.mem_cons_self _ _)
    · exact List.mem_cons_of_mem _ (List.mem_cons_of_mem _ hm)

theorem foldl_max_mem {α : Type} [LinearOrder α] (xs : List α) (x : α) :
    xs.foldl max x ∈ x :: xs := by
  induction xs generalizing x with
  | nil => simp
  | cons y ys ih =>
    rw [List.foldl_cons]
    rcases List.mem_cons.mp (ih (max x y)) with hm | hm
    · rcases max_choice x y with hc | hc
      · rw [hm, hc]; exact List.mem_cons_self _ _
      · rw [hm, hc]; exact List.mem_cons_of_mem _ (List.mem_cons_self _ _)
    · exact List.mem_cons_of_mem _ (List.mem_cons_of_mem _ hm)

theorem listMin_le (l : List ℚ) (hne : l ≠ []) : ∀ a ∈ l, listMin l ≤ a := by
  cases l with
  | nil => exact absurd rfl hne
  | cons x xs =>
    intro a ha
    rcases List.mem_cons.mp ha with rfl | ha
    · exact (foldl_min_le xs a).2
    · exact (foldl_min_le xs x).1 a ha

theorem le_listMax (l : List ℚ) (hne : l ≠ []) : ∀ a ∈ l, a ≤ listMax l := by
  cases l with
  | nil => exact absurd rfl hne
  | cons x xs =>
    intro a ha
    rcases List.mem_cons.mp ha with rfl | ha
    · exact (foldl_max_le xs a).2
    · exact (foldl_max_le xs x).1 a ha

theorem listMin_mem (l : List ℚ) (hne : l ≠ []) : listMin l ∈ l := by
  cases l with
  | nil => exact absurd rfl hne
  | cons x xs => exact foldl_min_mem xs x

theorem listMax_mem (l : List ℚ) (hne : l ≠ []) : listMax l ∈ l := by
  cases l with
  | nil => exact absurd rfl hne
  | cons x xs => exact foldl_max_mem xs x

/-! ## C7: add_file / remove_file contract -/

/-- C7: `add_file` raises exactly on an empty point list and leaves the
registry unchanged in that case; on success the registry maps the id to the
given points with bounds that are the attained min/max of each coordinate;
`remove_file` of an absent id is a no-op. -/
theorem add_file_contract (reg : Registry) (fp : String)
    (points : List GeoPoint) :
    ((add_file reg fp points).2 = true ↔ points = []) ∧
    ((add_file reg fp points).2 = true → (add_file reg fp points).1 = reg) ∧
    (points ≠ [] →
      dlookup (add_file reg fp points).1 fp =
        some { points := points, bounds := calculate_bounds points } ∧
      (∀ p ∈ points,
        (calculate_bounds points).min_lat ≤ p.1 ∧
        p.1 ≤ (calculate_bounds points).max_lat ∧
        (calculate_bounds points).min_lon ≤ p.2 ∧
        p.2 ≤ (calculate_bounds points).max_lon) ∧
      ((calculate_bounds points).min_lat ∈ points.map Prod.fst ∧
       (calculate_bounds points).max_lat ∈ points.map Prod.fst ∧
       (calculate_bounds points).min_lon ∈ points.map Prod.snd ∧
       (calculate_bounds points).max_lon ∈ points.map Prod.snd)) ∧
    (dcontains reg fp = false → remove_file reg fp = reg) := by
  have hmapne : points ≠ [] → points.map Prod.fst ≠ [] ∧ points.map Prod.snd ≠ [] := by
    intro h
    constructor <;> simpa using h
  refine ⟨?_, ?_, ?_, ?_⟩
  · unfold add_file
    by_cases h : points.isEmpty
    · simp [h, List.isEmpty_iff.mp h]
    · simp only [h, if_false]
      simpa using fun hc => h (by simp [hc])
  · unfold add_file
    by_cases h : points.isEmpty
    · simp [h]
    · simp [h]
  · intro hne
    refine ⟨?_, ?_, ?_⟩
    · unfold add_file
      rw [if_neg (by simpa using hne)]
      exact dlookup_dinsert_self reg fp _
    · intro p hp
      refine ⟨?_, ?_, ?_, ?_⟩
      · exact listMin_le _ (hmapne hne).1 p.1 (List.mem_map_of_mem _ hp)
      · exact le_listMax _ (hmapne hne).1 p.1 (List.mem_map_of_mem _ hp)
      · exact listMin_le _ (hmapne hne).2 p.2 (List.mem_map_of_mem _ hp)
      · exact le_listMax _ (hmapne hne).2 p.2 (List.mem_map_of_mem _ hp)
    · exact ⟨listMin_mem _ (hmapne hne).1, listMax_mem _ (hmapne hne).1,
        listMin_mem _ (hmapne hne).2, listMax_mem _ (hmapne hne).2⟩
  · intro h
    unfold remove_file
    rw [h]
    rfl

/-- Witness for C7 at concrete inputs. -/
theorem add_file_contract_witness :
    (add_file [] "f" [((10 : ℚ), (10 : ℚ)), (20, 20)]).2 = false ∧
    dlookup (add_file [] "f" [((10 : ℚ), (10 : ℚ)), (20, 20)]).1 "f" =
      some { points := [((10 : ℚ), (10 : ℚ)), (20, 20)],
             bounds := calculate_bounds [((10 : ℚ), (10 : ℚ)), (20, 20)] } ∧
    (add_file [] "g" ([] : List GeoPoint)).2 = true ∧
    remove_file [] "g" = [] := by
  have h := add_file_contract [] "f" [((10 : ℚ), (10 : ℚ)), (20, 20)]
  have h2 := add_file_contract [] "g" ([] : List GeoPoint)
  refine ⟨?_, ?_, ?_, ?_⟩
  · by_contra hb
    have := (h.1).mp (by revert hb; cases hv : (add_file [] "f" [((10 : ℚ), (10 : ℚ)), (20, 20)]).2 <;> simp [hv])
    exact absurd this (by decide)
  · exact ((h.2).2.1 (by decide)).1
  · exact (h2.1).mpr rfl
  · exact (h2.2).2.2 (by decide)

/-! ## C1: two-phase query = naive scan for axis-aligned selections -/

/-- Modelled from the spec's description of the naive semantics: scan every
point of every file in order and keep those whose latitude lies between the
south and north bounds and whose longitude lies between the west and east
bounds. -/
def naive_points_in_bounds (reg : Registry) (south north west east : ℚ) :
    List GeoPoint :=
  reg.flatMap (fun e =>
    e.2.points.filter (fun p =>
      decide (south ≤ p.1 ∧ p.1 ≤ north ∧ west ≤ p.2 ∧ p.2 ≤ east)))

/-- A registry built by a sequence of `add_file` calls (failed calls leave
the registry unchanged, so only the successful ones contribute). -/
def buildRegistry (files : List (String × List GeoPoint)) : Registry :=
  files.foldl (fun reg f => (add_file reg f.1 f.2).1) []

/-- Every stored file has a nonempty point list and a bounding box that is
exactly `_calculate_bounds` of its own points. -/
def validRegistry (reg : Registry) : Prop :=
  ∀ e ∈ reg, e.2.points ≠ [] ∧ e.2.bounds = calculate_bounds e.2.points

theorem validRegistry_dinsert {reg : Registry} (hreg : validRegistry reg)
    {fp : String} {fd : FileData} (hfd : fd.points ≠ [] ∧ fd.bounds = calculate_bounds fd.points) :
    validRegistry (dinsert reg fp fd) := by
  intro e he
  unfold dinsert at he
  by_cases hc : dcontains reg fp
  · rw [if_pos hc] at he
    rcases List.mem_map.mp he with ⟨p, hp, hpe⟩
    by_cases hk : p.1 = fp
    · rw [if_pos hk] at hpe
      rw [← hpe]
      exact hfd
    · rw [if_neg hk] at hpe
      rw [← hpe]
      exact hreg p hp
  · rw [if_neg hc] at he
    rcases List.mem_append.mp he with hm | hm
    · exact hreg e hm
    · rw [List.mem_singleton.mp hm]
      exact hfd

theorem validRegistry_buildRegistry (files : List (String × List GeoPoint)) :
    validRegistry (buildRegistry files) := by
  suffices h : ∀ reg, validRegistry reg →
      validRegistry (files.foldl (fun reg f => (add_file reg f.1 f.2).1) reg) by
    exact h [] (by intro e he; cases he)
  induction files with
  | nil => intro reg hreg; exact hreg
  | cons f fs ih =>
    intro reg hreg
    rw [List.foldl_cons]
    apply ih
    unfold add_file
    by_cases h : f.2.isEmpty
    · rw [if_pos h]
      exact hreg
    · rw [if_neg h]
      exact validRegistry_dinsert hreg ⟨by simpa using h, rfl⟩

theorem point_in_bounds_eq_naive (p : GeoPoint) (sel : SelectionBounds)
    (hlon1 : sel.nw.2 = sel.sw.2) (hlon2 : sel.ne.2 = sel.se.2) :
    point_in_bounds p sel =
      decide (sel.sw.1 ≤ p.1 ∧ p.1 ≤ sel.nw.1 ∧ sel.sw.2 ≤ p.2 ∧ p.2 ≤ sel.se.2) := by
  rw [← hlon1, ← hlon2]
  rw [Bool.eq_iff_iff]
  simp [point_in_bounds, and_assoc]

theorem filter_eq_nil_of_no_overlap (fd : FileData) (sel : SelectionBounds)
    (hv : fd.points ≠ [] ∧ fd.bounds = calculate_bounds fd.points)
    (hov : bounds_overlap fd.bounds sel = false) :
    fd.points.filter (fun p => point_in_bounds p sel) = [] := by
  rw [List.filter_eq_nil_iff]
  intro p hp hpb
  have hin : sel.sw.1 ≤ p.1 ∧ p.1 ≤ sel.nw.1 ∧ sel.nw.2 ≤ p.2 ∧ p.2 ≤ sel.ne.2 := by
    simpa [point_in_bounds, and_assoc] using hpb
  have hlat : p.1 ∈ fd.points.map Prod.fst := List.mem_map_of_mem _ hp
  have hlon : p.2 ∈ fd.points.map Prod.snd := List.mem_map_of_mem _ hp
  have hmapne1 : fd.points.map Prod.fst ≠ [] := by simpa using hv.1
  have hmapne2 : fd.points.map Prod.snd ≠ [] := by simpa using hv.1
  have hdisj : fd.bounds.max_lat < sel.sw.1 ∨ sel.nw.1 < fd.bounds.min_lat ∨
      fd.bounds.max_lon < sel.nw.2 ∨ sel.ne.2 < fd.bounds.min_lon := by
    by_contra hcon
    push_neg at hcon
    have h1 : ¬(fd.bounds.max_lat < sel.sw.1) := not_lt.mpr hcon.1
    have h2 : ¬(sel.nw.1 < fd.bounds.min_lat) := not_lt.mpr hcon.2.1
    have h3 : ¬(fd.bounds.max_lon < sel.nw.2) := not_lt.mpr hcon.2.2.1
    have h4 : ¬(sel.ne.2 < fd.bounds.min_lon) := not_lt.mpr hcon.2.2.2
    have htrue : bounds_overlap fd.bounds sel = true := by
      simp [bounds_overlap, gt_iff_lt, h1, h2, h3, h4]
    rw [htrue] at hov
    cases hov
  rcases hdisj with h | h | h | h
  · have : p.1 ≤ fd.bounds.max_lat := by
      rw [hv.2]; exact le_listMax _ hmapne1 p.1 hlat
    linarith [hin.1]
  · have : fd.bounds.min_lat ≤ p.1 := by
      rw [hv.2]; exact listMin_le _ hmapne1 p.1 hlat
    linarith [hin.2.1]
  · have : p.2 ≤ fd.bounds.max_lon := by
      rw [hv.2]; exact le_listMax _ hmapne2 p.2 hlon
    linarith [hin.2.2.1]
  · have : fd.bounds.min_lon ≤ p.2 := by
      rw [hv.2]; exact listMin_le _ hmapne2 p.2 hlon
    linarith [hin.2.2.2]

theorem get_points_eq_naive_of_valid (reg : Registry) (hval : validRegistry reg)
    (sel : SelectionBounds)
    (hlon1 : sel.nw.2 = sel.sw.2) (hlon2 : sel.ne.2 = sel.se.2) :
    get_points_in_bounds reg sel =
      naive_points_in_bounds reg sel.sw.1 sel.nw.1 sel.sw.2 sel.se.2 := by
  induction reg with
  | nil => rfl
  | cons e rest ih =>
    have hv := hval e (List.mem_cons_self _ _)
    have hrest : validRegistry rest := fun x hx => hval x (List.mem_cons_of_mem _ hx)
    unfold get_points_in_bounds naive_points_in_bounds
    rw [List.flatMap_cons, List.flatMap_cons]
    have htail := ih hrest
    unfold get_points_in_bounds naive_points_in_bounds at htail
    rw [htail]
    congr 1
    have hpred : ∀ p ∈ e.2.points, point_in_bounds p sel =
        decide (sel.sw.1 ≤ p.1 ∧ p.1 ≤ sel.nw.1 ∧ sel.sw.2 ≤ p.2 ∧ p.2 ≤ sel.se.2) :=
      fun p _ => point_in_bounds_eq_naive p sel hlon1 hlon2
    by_cases hov : bounds_overlap e.2.bounds sel
    · rw [if_pos hov]
      exact List.filter_congr hpred
    · rw [if_neg hov]
      rw [← List.filter_congr hpred]
      exact (filter_eq_nil_of_no_overlap e.2 sel hv (by simpa using hov)).symm

/-- C1: on a registry built from `add_file` calls and an axis-aligned
selection (shared north/south latitudes, shared west/east longitudes), the
two-phase `get_points_in_bounds` returns exactly what the naive full scan
returns — same points, same file-insertion-then-point order, no
deduplication — so the bounding-box reject phase never drops a qualifying
point. -/
theorem get_points_in_bounds_refines_naive
    (files : List (String × List GeoPoint)) (sel : SelectionBounds)
    (hlat1 : sel.nw.1 = sel.ne.1) (hlat2 : sel.sw.1 = sel.se.1)
    (hlon1 : sel.nw.2 = sel.sw.2) (hlon2 : sel.ne.2 = sel.se.2) :
    get_points_in_bounds (buildRegistry files) sel =
      naive_points_in_bounds (buildRegistry files)
        sel.sw.1 sel.nw.1 sel.sw.2 sel.se.2 :=
  get_points_eq_naive_of_valid (buildRegistry files)
    (validRegistry_buildRegistry files) sel hlon1 hlon2

/-- Witness for C1: one file inside, one outside an axis-aligned selection. -/
theorem get_points_in_bounds_refines_naive_witness :
    get_points_in_bounds
        (buildRegistry [("a", [((10 : ℚ), (10 : ℚ)), (20, 20)]),
                        ("b", [((50 : ℚ), (50 : ℚ))])])
        { nw := (25, 5), ne := (25, 25), sw := (5, 5), se := (5, 25) } =
      naive_points_in_bounds
        (buildRegistry [("a", [((10 : ℚ), (10 : ℚ)), (20, 20)]),
                        ("b", [((50 : ℚ), (50 : ℚ))])])
        5 25 5 25 ∧
    get_points_in_bounds
        (buildRegistry [("a", [((10 : ℚ), (10 : ℚ)), (20, 20)]),
                        ("b", [((50 : ℚ), (50 : ℚ))])])
        { nw := (25, 5), ne := (25, 25), sw := (5, 5), se := (5, 25) } =
      [((10 : ℚ), (10 : ℚ)), (20, 20)] := by
  constructor
  · exact get_points_in_bounds_refines_naive _ _ rfl rfl rfl rfl
  · decide

/-! ## C10 / C3: __setitem__ at capacity with an empty filtered cache -/

theorem dcontains_append_false {K V : Type} [DecidableEq K]
    {l : List (K × V)} {k k1 : K} {v1 : V}
    (hl : dcontains l k = false) (hk : k1 ≠ k) :
    dcontains (l ++ [(k1, v1)]) k = false := by
  simp only [dcontains, List.any_append, Bool.or_eq_false_iff]
  refine ⟨by simpa [dcontains] using hl, by simpa using hk⟩

/-- C10: when the base memory map is at (or beyond) capacity while the
filtered map is empty, the next `__setitem__` of a new key raises
(`next(iter({}))` on the empty filtered dict) and the new key is not
inserted. -/
theorem setItem_full_empty_filtered_raises {V : Type} (c : TileCacheState V)
    (k : TileKey) (v : V)
    (hfull : c.max_cache_size ≤ c.memory_cache.length)
    (hfilt : c.filtered_cache = [])
    (hnew : dcontains c.memory_cache k = false) :
    (TileCache.setItem c k v).2 = true ∧
    dcontains (TileCache.setItem c k v).1.memory_cache k = false := by
  obtain ⟨mem, filt, disk, mx⟩ := c
  subst hfilt
  simp only at hfull hnew
  unfold TileCache.setItem
  simp only [if_pos hfull]
  cases mem with
  | nil => exact ⟨rfl, hnew⟩
  | cons m ms =>
    refine ⟨rfl, ?_⟩
    rw [dcontains_cons, Bool.or_eq_false_iff] at hnew
    exact hnew.2

/-- Witness for C10 on a concrete full cache. -/
theorem setItem_full_empty_filtered_raises_witness :
    (TileCache.setItem
        ({ memory_cache := [(((0 : ℤ), (0 : ℤ), (0 : ℤ)), (5 : ℕ))],
           filtered_cache := [], disk := [], max_cache_size := 1 } :
          TileCacheState ℕ) (0, 0, 1) 7).2 = true ∧
    dcontains (TileCache.setItem
        ({ memory_cache := [(((0 : ℤ), (0 : ℤ), (0 : ℤ)), (5 : ℕ))],
           filtered_cache := [], disk := [], max_cache_size := 1 } :
          TileCacheState ℕ) (0, 0, 1) 7).1.memory_cache (0, 0, 1) = false :=
  setItem_full_empty_filtered_raises _ (0, 0, 1) 7 (by decide) rfl (by decide)

/-- A sequence of `__setitem__` calls, aborted at the first propagated
exception (an uncaught Python exception stops the caller); returns the final
state and whether an exception was raised. -/
def TileCache.putSeq {V : Type} :
    TileCacheState V → List (TileKey × V) → TileCacheState V × Bool
  | c, [] => (c, false)
  | c, kv :: rest =>
    let r := TileCache.setItem c kv.1 kv.2
    if r.2 then (r.1, true) else TileCache.putSeq r.1 rest

theorem setItem_raises_of_full_empty_filtered {V : Type} (c : TileCacheState V)
    (k : TileKey) (v : V)
    (hfull : c.max_cache_size ≤ c.memory_cache.length)
    (hfilt : c.filtered_cache = []) :
    (TileCache.setItem c k v).2 = true := by
  unfold TileCache.setItem
  simp only [if_pos hfull]
  cases hm : c.memory_cache with
  | nil => rfl
  | cons m ms => rw [hfilt]

theorem setItem_below_capacity {V : Type} (c : TileCacheState V)
    (k : TileKey) (v : V) (hlt : c.memory_cache.length < c.max_cache_size)
    (hnew : dcontains c.memory_cache k = false) :
    TileCache.setItem c k v =
      ({ c with memory_cache := c.memory_cache ++ [(k, v)] }, false) := by
  unfold TileCache.setItem
  rw [if_neg (by omega), dinsert_of_not_contains _ _ _ hnew]

theorem putSeq_raises {V : Type} (kvs : List (TileKey × V)) :
    ∀ c : TileCacheState V,
      c.filtered_cache = [] →
      (∀ kv ∈ kvs, dcontains c.memory_cache kv.1 = false) →
      (kvs.map Prod.fst).Nodup →
      c.max_cache_size + 1 ≤ c.memory_cache.length + kvs.length →
      c.memory_cache.length ≤ c.max_cache_size →
      (TileCache.putSeq c kvs).2 = true := by
  induction kvs with
  | nil =>
    intro c _ _ _ hge hle
    simp at hge
    omega
  | cons kv rest ih =>
    intro c hfilt hfresh hnodup hge hle
    by_cases hlt : c.memory_cache.length < c.max_cache_size
    · have hnew : dcontains c.memory_cache kv.1 = false :=
        hfresh kv (List.mem_cons_self _ _)
      have hstep := setItem_below_capacity c kv.1 kv.2 hlt hnew
      unfold TileCache.putSeq
      rw [hstep]
      simp only [if_neg (by simp : ¬(false = true))]
      apply ih
      · exact hfilt
      · intro kv2 h2
        refine dcontains_append_false (hfresh kv2 (List.mem_cons_of_mem _ h2)) ?_
        have := (List.nodup_cons.mp hnodup).1
        intro he
        exact this (he ▸ List.mem_map_of_mem Prod.fst h2)
      · exact (List.nodup_cons.mp hnodup).2
      · simp only [List.length_append, List.length_cons, List.length_singleton]
        simp only [List.length_cons] at hge
        omega
      · simp only [List.length_append, List.length_singleton]
        omega
    · have hraise := setItem_raises_of_full_empty_filtered c kv.1 kv.2 (by omega) hfilt
      unfold TileCache.putSeq
      rw [if_pos hraise]

/-- C3 evaluation: starting from a fresh `TileCache`, a sequence of
`max_cache_size + 1` puts with distinct keys raises an exception (at the put
past capacity) instead of evicting-and-inserting. -/
theorem put_capacity_plus_one_raises {V : Type} (d : List (TileKey × V))
    (kvs : List (TileKey × V))
    (hnodup : (kvs.map Prod.fst).Nodup)
    (hlen : kvs.length = (TileCache.init d).max_cache_size + 1) :
    (TileCache.putSeq (TileCache.init d) kvs).2 = true := by
  apply putSeq_raises
  · rfl
  · intro kv _
    rfl
  · exact hnodup
  · simp only [TileCache.init] at hlen ⊢
    omega
  · simp [TileCache.init]

set_option maxRecDepth 4096 in
/-- Witness for C3's evaluation theorem: 1001 distinct keys. -/
theorem put_capacity_plus_one_raises_witness :
    (TileCache.putSeq (TileCache.init ([] : List (TileKey × ℕ)))
      ((List.range 1001).map (fun i : ℕ => ((((i : ℤ), (0 : ℤ), (0 : ℤ)) : TileKey), (0 : ℕ))))).2
      = true := by
  apply put_capacity_plus_one_raises
  · have hinj : Function.Injective
        (fun i : ℕ => (((i : ℤ), (0 : ℤ), (0 : ℤ)) : TileKey)) := by
      intro a b hab
      have h1 : (a : ℤ) = (b : ℤ) := congrArg Prod.fst hab
      exact_mod_cast h1
    have h2 : ((List.range 1001).map
          (fun i : ℕ => ((((i : ℤ), (0 : ℤ), (0 : ℤ)) : TileKey), (0 : ℕ)))).map Prod.fst
        = (List.range 1001).map
          (fun i : ℕ => (((i : ℤ), (0 : ℤ), (0 : ℤ)) : TileKey)) := by
      rw [List.map_map]
      rfl
    rw [h2]
    exact List.Nodup.map hinj (List.nodup_range 1001)
  · simp only [TileCache.init, List.length_map, List.length_range]

/-! ## C4: zoom_to -/

/-- C4: `zoom_to` clamps the requested zoom to `[0, 19]`; when the clamped
value equals the current zoom the call is a complete no-op; otherwise the
world point that was under the given screen center stays under it exactly
(scale factor `2^(new-old)`), the new zoom is the clamped value, and the
memory-tier caches, pending requests and pending filters are cleared while
the disk tier survives. -/
theorem zoom_to_spec {V : Type} (s : MapViewState V) (new_zoom : ℤ)
    (cx cy : ℚ) :
    (0 ≤ max 0 (min 19 new_zoom) ∧ max 0 (min 19 new_zoom) ≤ 19) ∧
    (max 0 (min 19 new_zoom) = s.zoom_level →
      MapView.zoomTo s new_zoom cx cy = s) ∧
    (max 0 (min 19 new_zoom) ≠ s.zoom_level →
      (MapView.zoomTo s new_zoom cx cy).zoom_level = max 0 (min 19 new_zoom) ∧
      (cx - s.pan_x) * 2 ^ (max 0 (min 19 new_zoom) - s.zoom_level) +
        (MapView.zoomTo s new_zoom cx cy).pan_x = cx ∧
      (cy - s.pan_y) * 2 ^ (max 0 (min 19 new_zoom) - s.zoom_level) +
        (MapView.zoomTo s new_zoom cx cy).pan_y = cy ∧
      (MapView.zoomTo s new_zoom cx cy).tile_cache.memory_cache = [] ∧
      (MapView.zoomTo s new_zoom cx cy).tile_cache.filtered_cache = [] ∧
      (MapView.zoomTo s new_zoom cx cy).pending_requests = [] ∧
      (MapView.zoomTo s new_zoom cx cy).pending_filters = [] ∧
      (MapView.zoomTo s new_zoom cx cy).tile_cache.disk = s.tile_cache.disk) := by
  refine ⟨⟨le_max_left 0 _, ?_⟩, ?_, ?_⟩
  · rcases le_total 19 new_zoom with h | h
    · simp [min_eq_left h]
    · have : min 19 new_zoom = new_zoom := min_eq_right h
      rw [this]
      exact max_le (by norm_num) h
  · intro h
    unfold MapView.zoomTo
    rw [if_pos h]
  · intro h
    unfold MapView.zoomTo
    rw [if_neg h]
    simp only [MapView.clearCache, TileCache.clearMemory]
    refine ⟨trivial, by ring, by ring, trivial, trivial, trivial, trivial, trivial⟩

/-- Witness for C4, echoing the spec's end-to-end test: zoom 5 → 6 around
screen point (640, 360). -/
theorem zoom_to_spec_witness :
    (MapView.zoomTo
        ({ zoom_level := 5, pan_x := 100, pan_y := 50,
           tile_cache := { memory_cache := [(((5 : ℤ), (0 : ℤ), (0 : ℤ)), (1 : ℕ))],
                           filtered_cache := [], disk := [],
                           max_cache_size := 1000 },
           pending_requests := [((5 : ℤ), (0 : ℤ), (0 : ℤ))],
           pending_filters := [] } : MapViewState ℕ) 6 640 360).zoom_level = 6 ∧
    ((640 : ℚ) - 100) * 2 ^ ((6 : ℤ) - 5) +
      (MapView.zoomTo
        ({ zoom_level := 5, pan_x := 100, pan_y := 50,
           tile_cache := { memory_cache := [(((5 : ℤ), (0 : ℤ), (0 : ℤ)), (1 : ℕ))],
                           filtered_cache := [], disk := [],
                           max_cache_size := 1000 },
           pending_requests := [((5 : ℤ), (0 : ℤ), (0 : ℤ))],
           pending_filters := [] } : MapViewState ℕ) 6 640 360).pan_x = 640 := by
  have h := zoom_to_spec
    ({ zoom_level := 5, pan_x := 100, pan_y := 50,
       tile_cache := { memory_cache := [(((5 : ℤ), (0 : ℤ), (0 : ℤ)), (1 : ℕ))],
                       filtered_cache := [], disk := [],
                       max_cache_size := 1000 },
       pending_requests := [((5 : ℤ), (0 : ℤ), (0 : ℤ))],
       pending_filters := [] } : MapViewState ℕ) 6 640 360
  have h6 : max 0 (min 19 (6 : ℤ)) = 6 := by decide
  have hne : max 0 (min 19 (6 : ℤ)) ≠ (5 : ℤ) := by decide
  have hc := h.2.2 hne
  exact ⟨h6 ▸ hc.1, by simpa [h6] using hc.2.1⟩

/-! ## C6: request de-duplication and the pending-requests invariant -/

/-- C6: `request_tile` on a key that is already pending or already in the
memory cache changes nothing and issues no network call; repeating a
`request_tile` immediately is always a no-op (so two calls issue at most one
network request); and `request_tile`, `handle_tile_response` and
`clear_cache` all preserve distinctness of the tracked pending keys. -/
theorem request_tile_dedup {V : Type} (s : MapViewState V) (x y zoom : ℤ)
    (k : TileKey) (noError : Bool) (decoded : Option V) :
    (TileCache.containsKey s.tile_cache (MapView.tileKey x y zoom) = true ∨
        MapView.tileKey x y zoom ∈ s.pending_requests →
      MapView.requestTile s x y zoom = (s, [])) ∧
    (MapView.requestTile (MapView.requestTile s x y zoom).1 x y zoom =
      ((MapView.requestTile s x y zoom).1, [])) ∧
    (s.pending_requests.Nodup →
      (MapView.requestTile s x y zoom).1.pending_requests.Nodup ∧
      (MapView.handleTileResponse s k noError decoded).1.pending_requests.Nodup ∧
      (MapView.clearCache s).pending_requests.Nodup) := by
  refine ⟨?_, ?_, ?_⟩
  · intro h
    unfold MapView.requestTile
    have hcond : (TileCache.containsKey s.tile_cache (MapView.tileKey x y zoom) ||
        decide (MapView.tileKey x y zoom ∈ s.pending_requests)) = true := by
      rcases h with h | h
      · simp [h]
      · simp [h]
    rw [if_pos hcond]
  · by_cases hcond : (TileCache.containsKey s.tile_cache (MapView.tileKey x y zoom) ||
        decide (MapView.tileKey x y zoom ∈ s.pending_requests)) = true
    · unfold MapView.requestTile
      rw [if_pos hcond, if_pos hcond]
    · have hstep : MapView.requestTile s x y zoom =
          ({ s with pending_requests :=
              s.pending_requests ++ [MapView.tileKey x y zoom] },
           [Effect.networkRequest (MapView.tileKey x y zoom)]) := by
        unfold MapView.requestTile
        rw [if_neg hcond]
      rw [hstep]
      unfold MapView.requestTile
      rw [if_pos (by simp)]
  · intro hnd
    refine ⟨?_, ?_, ?_⟩
    · unfold MapView.requestTile
      by_cases hcond : (TileCache.containsKey s.tile_cache (MapView.tileKey x y zoom) ||
          decide (MapView.tileKey x y zoom ∈ s.pending_requests)) = true
      · rw [if_pos hcond]
        exact hnd
      · rw [if_neg hcond]
        have hmem : MapView.tileKey x y zoom ∉ s.pending_requests := by
          intro hm
          exact hcond (by simp [hm])
        simp only [List.nodup_append, List.nodup_singleton]
        exact ⟨hnd, by trivial, by simpa [List.disjoint_singleton] using hmem⟩
    · unfold MapView.handleTileResponse
      match noError, decoded with
      | true, some image =>
        by_cases hr : (TileCache.setItem s.tile_cache k image).2
        · simp only [hr, if_pos]
          exact hnd
        · simp only [hr]
          simp only [Bool.false_eq_true, if_false]
          exact List.Nodup.filter _ hnd
      | true, none => exact List.Nodup.filter _ hnd
      | false, some image => exact List.Nodup.filter _ hnd
      | false, none => exact List.Nodup.filter _ hnd
    · exact List.nodup_nil

/-- Witness for C6 at a concrete state. -/
theorem request_tile_dedup_witness :
    MapView.requestTile
      ({ zoom_level := 5, pan_x := 0, pan_y := 0,
         tile_cache := { memory_cache := [], filtered_cache := [], disk := [],
                         max_cache_size := 1000 },
         pending_requests := [((5 : ℤ), (1 : ℤ), (2 : ℤ))],
         pending_filters := [] } : MapViewState ℕ) 1 2 5 =
      (({ zoom_level := 5, pan_x := 0, pan_y := 0,
          tile_cache := { memory_cache := [], filtered_cache := [], disk := [],
                          max_cache_size := 1000 },
          pending_requests := [((5 : ℤ), (1 : ℤ), (2 : ℤ))],
          pending_filters := [] } : MapViewState ℕ), []) ∧
    (MapView.clearCache
      ({ zoom_level := 5, pan_x := 0, pan_y := 0,
         tile_cache := { memory_cache := [], filtered_cache := [], disk := [],
                         max_cache_size := 1000 },
         pending_requests := [((5 : ℤ), (1 : ℤ), (2 : ℤ))],
         pending_filters := [] } : MapViewState ℕ)).pending_requests.Nodup := by
  have h := request_tile_dedup
    ({ zoom_level := 5, pan_x := 0, pan_y := 0,
       tile_cache := { memory_cache := [], filtered_cache := [], disk := [],
                       max_cache_size := 1000 },
       pending_requests := [((5 : ℤ), (1 : ℤ), (2 : ℤ))],
       pending_filters := [] } : MapViewState ℕ) 1 2 5
    ((5 : ℤ), (1 : ℤ), (2 : ℤ)) true none
  exact ⟨h.1 (Or.inr (by decide)), (h.2.2 (by decide)).2.2⟩

/-! ## C5: get_tile never starts a filter job -/

/-- C5 evaluation: with the base tile in the memory cache and no filtered
variant, `get_tile` returns the base tile, leaves the state untouched
(in particular `pending_filters`) and produces no effect at all — no filter
job is started, contrary to the claim and to the method's own docstring
("with asynchronous filtering"). -/
theorem get_tile_starts_no_filter_job :
    MapView.getTile
      ({ zoom_level := 5, pan_x := 0, pan_y := 0,
         tile_cache := { memory_cache := [(((5 : ℤ), (1 : ℤ), (2 : ℤ)), (42 : ℕ))],
                         filtered_cache := [], disk := [],
                         max_cache_size := 1000 },
         pending_requests := [], pending_filters := [] } : MapViewState ℕ) 1 2 5 =
      { result := some 42,
        state := { zoom_level := 5, pan_x := 0, pan_y := 0,
                   tile_cache := { memory_cache := [(((5 : ℤ), (1 : ℤ), (2 : ℤ)), (42 : ℕ))],
                                   filtered_cache := [], disk := [],
                                   max_cache_size := 1000 },
                   pending_requests := [], pending_filters := [] },
        effects := [], raised := false } := by
  decide

/-! ## C8: apply_filter never propagates an exception -/

/-- C8: `apply_filter` is total as written: the "None" entry of the
catalogue returns the input raster unchanged, an unknown filter name returns
the input image, and a catalogue entry that raises is caught and the input
image returned. -/
theorem apply_filter_never_raises :
    (∀ image : Raster, apply_filter FILTERS image "None" = image) ∧
    (∀ (I : Type) (filters : List (String × (I → Except String I)))
        (image : I) (name : String),
      dlookup filters name = none → apply_filter filters image name = image) ∧
    (∀ (I : Type) (filters : List (String × (I → Except String I)))
        (image : I) (name : String) (f : I → Except String I) (e : String),
      dlookup filters name = some f → f image = Except.error e →
        apply_filter filters image name = image) := by
  refine ⟨fun image => rfl, ?_, ?_⟩
  · intro I filters image name h
    unfold apply_filter
    rw [h]
  · intro I filters image name f e hf he
    unfold apply_filter
    simp only [hf, he]

/-- Witness for C8 on concrete catalogues. -/
theorem apply_filter_never_raises_witness :
    apply_filter FILTERS [[{ r := 1, g := 2, b := 3, a := 4 }]] "None" =
      [[{ r := 1, g := 2, b := 3, a := 4 }]] ∧
    apply_filter ([] : List (String × (ℕ → Except String ℕ))) 3 "Sepia" = 3 ∧
    apply_filter [("Boom", fun _ : ℕ => Except.error "fail")] 3 "Boom" = 3 :=
  ⟨apply_filter_never_raises.1 [[{ r := 1, g := 2, b := 3, a := 4 }]],
   apply_filter_never_raises.2.1 ℕ [] 3 "Sepia" rfl,
   apply_filter_never_raises.2.2 ℕ [("Boom", fun _ : ℕ => Except.error "fail")]
     3 "Boom" (fun _ : ℕ => Except.error "fail") "fail" rfl rfl⟩

/-! ## C9: the QColor-based filters do not preserve alpha -/

/-- C9 evaluation: `sepia` on a 1×1 raster whose pixel has alpha 128 yields
alpha 255, because `QColor(result.pixel(x, y))` discards the QRgb alpha and
sets solid alpha before `color.alpha()` is read back.  The colour channels
are the clamped sepia mix. -/
theorem sepia_forces_alpha_255 :
    sepia [[{ r := 10, g := 20, b := 30, a := 128 }]] =
      [[{ r := 24, g := 22, b := 17, a := 255 }]] := by
  decide

/-! ## C2: geo_to_pixel and screen_to_map are mutual inverses -/

theorem screen_to_map_geo_to_pixel (lat lon : ℝ) (zoom : ℕ)
    (hlat : |lat| < 85) (hlon1 : -180 ≤ lon) (hlon2 : lon ≤ 180)
    (hzoom : zoom ≤ 19) :
    screen_to_map 0 0 zoom (geo_to_pixel lat lon zoom).1
      (geo_to_pixel lat lon zoom).2 = (lat, lon) := by
  have hπ := Real.pi_pos
  have hπne := Real.pi_ne_zero
  have hn : (0 : ℝ) < 2 ^ zoom := by positivity
  set φ := lat * (Real.pi / 180) with hφ
  have habs : |φ| < Real.pi / 2 := by
    rw [hφ, abs_mul, abs_of_pos (by positivity : (0 : ℝ) < Real.pi / 180)]
    have hstep : |lat| * (Real.pi / 180) < 85 * (Real.pi / 180) :=
      mul_lt_mul_of_pos_right hlat (by positivity)
    nlinarith
  have h1 : -(Real.pi / 2) < φ := (abs_lt.mp habs).1
  have h2 : φ < Real.pi / 2 := (abs_lt.mp habs).2
  have hcos : 0 < Real.cos φ := Real.cos_pos_of_mem_Ioo ⟨h1, h2⟩
  have hsin : -1 < Real.sin φ := by
    nlinarith [Real.sin_sq_add_cos_sq φ, mul_pos hcos hcos,
      Real.neg_one_le_sin φ, Real.sin_le_one φ]
  have hu : 0 < Real.tan φ + 1 / Real.cos φ := by
    rw [Real.tan_eq_sin_div_cos]
    have hrw : Real.sin φ / Real.cos φ + 1 / Real.cos φ =
        (Real.sin φ + 1) / Real.cos φ := by ring
    rw [hrw]
    exact div_pos (by linarith) hcos
  have hmul : (Real.tan φ + 1 / Real.cos φ) * (1 / Real.cos φ - Real.tan φ)
      = 1 := by
    rw [Real.tan_eq_sin_div_cos]
    field_simp
    nlinarith [Real.sin_sq_add_cos_sq φ]
  have hinv : (Real.tan φ + 1 / Real.cos φ)⁻¹ = 1 / Real.cos φ - Real.tan φ :=
    inv_eq_of_mul_eq_one_right hmul
  have hsinh :
      Real.sinh (Real.log (Real.tan φ + 1 / Real.cos φ)) = Real.tan φ := by
    rw [Real.sinh_log hu, hinv]
    ring
  simp only [geo_to_pixel, screen_to_map, Prod.mk.injEq]
  constructor
  · have harg : Real.pi * (1 - 2 * (((1 - Real.log (Real.tan φ + 1 / Real.cos φ)
        / Real.pi) / 2 * (2 : ℝ) ^ zoom * 256 - 0) / 256) / (2 : ℝ) ^ zoom)
        = Real.log (Real.tan φ + 1 / Real.cos φ) := by
      field_simp
      ring
    rw [harg, hsinh, Real.arctan_tan h1 h2, hφ]
    field_simp
  · field_simp
    ring

theorem geo_to_pixel_screen_to_map (x y : ℝ) (zoom : ℕ) (hzoom : zoom ≤ 19) :
    geo_to_pixel (screen_to_map 0 0 zoom x y).1 (screen_to_map 0 0 zoom x y).2
      zoom = (x, y) := by
  have hπ := Real.pi_pos
  have hπne := Real.pi_ne_zero
  have hn : (0 : ℝ) < 2 ^ zoom := by positivity
  have key : ∀ t : ℝ,
      Real.log (Real.tan (Real.arctan (Real.sinh t) * (180 / Real.pi) *
          (Real.pi / 180)) +
        1 / Real.cos (Real.arctan (Real.sinh t) * (180 / Real.pi) *
          (Real.pi / 180))) = t := by
    intro t
    have hrad : Real.arctan (Real.sinh t) * (180 / Real.pi) * (Real.pi / 180)
        = Real.arctan (Real.sinh t) := by
      field_simp
    rw [hrad, Real.tan_arctan]
    have hsec : 1 / Real.cos (Real.arctan (Real.sinh t)) = Real.cosh t := by
      rw [Real.cos_arctan, one_div_one_div]
      have hsq : 1 + Real.sinh t ^ 2 = Real.cosh t ^ 2 := by
        rw [Real.cosh_sq]
        ring
      rw [hsq, Real.sqrt_sq (Real.cosh_pos t).le]
    rw [hsec, Real.sinh_add_cosh, Real.log_exp]
  simp only [geo_to_pixel, screen_to_map, Prod.mk.injEq]
  constructor
  · field_simp
    ring
  · rw [key]
    field_simp
    ring

/-- C2: for `|lat| < 85`, `lon ∈ [-180, 180]` and `zoom ∈ [0, 19]`,
`geo_to_pixel` followed by the `screen_to_map` inverse transform (with zero
pan offsets) recovers `(lat, lon)` exactly, and conversely `screen_to_map`
followed by `geo_to_pixel` recovers the pixel coordinates exactly: over the
exact reals the two functions are mutual inverses (hence mutual inverses
within floating-point tolerance in the implementation). -/
theorem geo_pixel_mutual_inverses :
    (∀ (lat lon : ℝ) (zoom : ℕ),
      |lat| < 85 → -180 ≤ lon → lon ≤ 180 → zoom ≤ 19 →
      screen_to_map 0 0 zoom (geo_to_pixel lat lon zoom).1
        (geo_to_pixel lat lon zoom).2 = (lat, lon)) ∧
    (∀ (x y : ℝ) (zoom : ℕ), zoom ≤ 19 →
      geo_to_pixel (screen_to_map 0 0 zoom x y).1
        (screen_to_map 0 0 zoom x y).2 zoom = (x, y)) :=
  ⟨fun lat lon zoom h1 h2 h3 h4 =>
      screen_to_map_geo_to_pixel lat lon zoom h1 h2 h3 h4,
   fun x y zoom h => geo_to_pixel_screen_to_map x y zoom h⟩

/-- Witness for C2 at concrete inputs. -/
theorem geo_pixel_mutual_inverses_witness :
    (|(0 : ℝ)| < 85 ∧
      screen_to_map 0 0 0 (geo_to_pixel 0 0 0).1 (geo_to_pixel 0 0 0).2
        = (0, 0)) ∧
    geo_to_pixel (screen_to_map 0 0 5 640 360).1
      (screen_to_map 0 0 5 640 360).2 5 = (640, 360) :=
  ⟨⟨by norm_num,
    geo_pixel_mutual_inverses.1 0 0 0 (by norm_num) (by norm_num)
      (by norm_num) (by norm_num)⟩,
   geo_pixel_mutual_inverses.2 640 360 5 (by norm_num)⟩

end Heatmap
